import Mathlib

/-!
Verification of the field-validation, payload-building and outcome-normalization
logic of the `alloy-assignment` repository (`src/app.py` and
`src/archive/server.py`).

Modelling conventions for the shallow embedding:
* Python strings are Lean `String`s; we reason about their `List Char` data.
* Python's `str.strip`, `str.lower`, `str.upper`, the regex classes `\s` and
  `\d`, and `str.isdigit` are modelled over their ASCII behaviour
  (`\s` = space, tab, newline, carriage return, vertical tab, form feed;
  `\d` = the ten ASCII digits).  The repository only ever feeds them form
  input; none of the claims depends on non-ASCII code points.
* Python's `re.match` with a pattern ending in `$` succeeds on the whole
  string and also when a single newline follows the matched text (documented
  behaviour of `$`: it matches at the end of the string or just before a
  trailing newline).  The matchers below reproduce this via `dollarEnd`.
* `dict` results are modelled as association lists in insertion order; the
  "current date" used by the age check is an explicit parameter.
-/

namespace Alloy

/-- ASCII part of Python's whitespace class (`str.strip`, regex `\s`). -/
def isPySpace (c : Char) : Bool :=
  c == ' ' || c == '\t' || c == '\n' || c == '\r' || c == '\x0b' || c == '\x0c'

/-- Model of Python `str.strip()` on the character list: drop whitespace from
both ends. -/
def pyStripList (l : List Char) : List Char :=
  ((l.dropWhile isPySpace).reverse.dropWhile isPySpace).reverse

/-- Model of Python `str.strip()`. -/
def pyStrip (s : String) : String :=
  ⟨pyStripList s.data⟩

/-- Model of Python `str.lower()` (ASCII). -/
def pyLower (s : String) : String :=
  ⟨s.data.map Char.toLower⟩

/-- Model of Python `str.upper()` (ASCII). -/
def pyUpper (s : String) : String :=
  ⟨s.data.map Char.toUpper⟩

/-- ASCII decimal digit (regex `\d`, `str.isdigit` restricted to ASCII). -/
def isAsciiDigit (c : Char) : Bool :=
  '0' ≤ c && c ≤ '9'

/-- Model of the Python regex anchor `$` under `re.match`: the remaining
input is empty, or is exactly one newline (Python's `$` also matches just
before a newline that ends the string). -/
def dollarEnd (l : List Char) : Bool :=
  l == [] || l == ['\n']

/-! ## SSN validation — `src/app.py` line 157/195-196: `SSN_RE = ^\d{9}$`,
`validate_ssn(ssn) = SSN_RE.match(ssn) is not None` -/

/-- Model of `validate_ssn` (`src/app.py` lines 195-196): `re.match` of
`^\d{9}$`.  `\d{9}` consumes exactly nine digit characters, then `$` must
hold on the rest. -/
def validate_ssn (s : String) : Bool :=
  ((s.data.take 9).length == 9) && (s.data.take 9).all isAsciiDigit
    && dollarEnd (s.data.drop 9)

/-! ## Email validation — `src/app.py` line 155/189-190:
`EMAIL_RE = ^[^@\s]+@[^@\s]+\.[^@\s]+$`,
`validate_email(email) = EMAIL_RE.match(email) is not None` -/

/-- Character class `[^@\s]` of `EMAIL_RE`. -/
def emailChar (c : Char) : Bool :=
  !(c == '@') && !(isPySpace c)

/-- Backtracking matcher for the tail `[^@\s]+$` of `EMAIL_RE`. -/
def matchTld : List Char → Bool
  | [] => false
  | c :: rest => emailChar c && (dollarEnd rest || matchTld rest)

/-- Literal `\.` of `EMAIL_RE` followed by its tail: the input starts with a
dot and the rest matches `[^@\s]+$`. -/
def afterDot : List Char → Bool
  | '.' :: r => matchTld r
  | _ => false

/-- Backtracking matcher for the tail `[^@\s]+\.[^@\s]+$` of `EMAIL_RE`. -/
def matchDomain : List Char → Bool
  | [] => false
  | c :: rest => emailChar c && (afterDot rest || matchDomain rest)

/-- Literal `@` of `EMAIL_RE` followed by its tail: the input starts with an
`@` and the rest matches `[^@\s]+\.[^@\s]+$`. -/
def afterAt : List Char → Bool
  | '@' :: r => matchDomain r
  | _ => false

/-- Backtracking matcher for the whole pattern
`[^@\s]+@[^@\s]+\.[^@\s]+$` of `EMAIL_RE` (the leading `^` is `re.match`'s
anchoring at the start). -/
def matchLocal : List Char → Bool
  | [] => false
  | c :: rest => emailChar c && (afterAt rest || matchLocal rest)

/-- Model of `validate_email` (`src/app.py` lines 189-190). -/
def validate_email (s : String) : Bool :=
  matchLocal s.data

/-- Modelled from the spec: matcher for `[^@\s]+` followed by end of string
(no trailing-newline allowance), used to state the claimed email shape
`local-part@domain.tld`. -/
def matchTldShape : List Char → Bool
  | [] => false
  | c :: rest => emailChar c && (rest.isEmpty || matchTldShape rest)

/-- Modelled from the spec: a dot followed by a nonempty tld part. -/
def afterDotShape : List Char → Bool
  | '.' :: r => matchTldShape r
  | _ => false

/-- Modelled from the spec: matcher for `[^@\s]+\.[^@\s]+` followed by end of
string. -/
def matchDomainShape : List Char → Bool
  | [] => false
  | c :: rest => emailChar c && (afterDotShape rest || matchDomainShape rest)

/-- Modelled from the spec: an `@` followed by `domain.tld`. -/
def afterAtShape : List Char → Bool
  | '@' :: r => matchDomainShape r
  | _ => false

/-- Modelled from the spec: matcher for `[^@\s]+@[^@\s]+\.[^@\s]+` followed
by end of string. -/
def matchLocalShape : List Char → Bool
  | [] => false
  | c :: rest => emailChar c && (afterAtShape rest || matchLocalShape rest)

/-- Modelled from the spec's words (claim C3 / spec section 4.1): the string
has the exact shape `local-part@domain.tld` — a nonempty local part, `@`, a
nonempty domain part, `.`, a nonempty tld part, with no whitespace or `@`
anywhere in the three parts, and nothing after the tld. -/
def emailShape (s : String) : Bool :=
  matchLocalShape s.data

/-! ## State-code validation — `src/app.py` lines 206-217 -/

/-- The `VALID_STATES` constant of `src/app.py` lines 206-211 (identical at
lines 127-132 and in `src/archive/server.py` lines 22-27), in source order. -/
def validStatesList : List String :=
  ["AL","AK","AZ","AR","CA","CO","CT","DE","FL","GA","HI","ID","IL","IN","IA",
   "KS","KY","LA","ME","MD","MA","MI","MN","MS","MO","MT","NE","NV","NH","NJ",
   "NM","NY","NC","ND","OH","OK","OR","PA","RI","SC","SD","TN","TX","UT","VT",
   "VA","WA","WV","WI","WY","DC"]

/-- Model of `validate_state_code` (`src/app.py` lines 213-217):
`state.upper() in VALID_STATES`. -/
def validate_state_code (s : String) : Bool :=
  decide (pyUpper s ∈ validStatesList)

/-! ## Birth-date parsing and age — `src/app.py` lines 174-187
(`validate_age_realistic`) and `src/archive/server.py` lines 38-45
(`validate_age_18_120`, line-for-line the same computation). -/

/-- A calendar date as produced by `datetime.date`. -/
structure Date where
  year : Nat
  month : Nat
  day : Nat
deriving DecidableEq, Repr

/-- Gregorian leap-year rule used by `datetime.date`. -/
def isLeap (y : Nat) : Bool :=
  y % 4 == 0 && (y % 100 != 0 || y % 400 == 0)

/-- Number of days in a month, as enforced by the `datetime.date`
constructor. -/
def daysInMonth (y m : Nat) : Nat :=
  if m == 2 then (if isLeap y then 29 else 28)
  else if m == 4 || m == 6 || m == 9 || m == 11 then 30
  else 31

/-- Numeric value of a list of ASCII digit characters. -/
def digitsVal (l : List Char) : Nat :=
  l.foldl (fun a c => a * 10 + (c.toNat - 48)) 0

/-- Python's `str.split("-")` on the character list (used by the embedding
of `strptime`: since `\d` never matches a dash, the format regex groups are
exactly the dash-separated chunks). -/
def splitOnDash : List Char → List (List Char)
  | [] => [[]]
  | c :: rest =>
      if c = '-' then [] :: splitOnDash rest
      else match splitOnDash rest with
        | [] => [[c]]
        | h :: t => (c :: h) :: t

/-- CPython `strptime` group for `%m`: regex `1[0-2]|0[1-9]|[1-9]` — one or
two ASCII digits with value between 1 and 12. -/
def monthField (p : List Char) : Bool :=
  p.all isAsciiDigit && decide (1 ≤ p.length) && decide (p.length ≤ 2)
    && decide (1 ≤ digitsVal p) && decide (digitsVal p ≤ 12)

/-- CPython `strptime` group for `%d`: regex `3[01]|[12]\d|0[1-9]|[1-9]` —
one or two ASCII digits with value between 1 and 31. -/
def dayField (p : List Char) : Bool :=
  p.all isAsciiDigit && decide (1 ≤ p.length) && decide (p.length ≤ 2)
    && decide (1 ≤ digitsVal p) && decide (digitsVal p ≤ 31)

/-- Model of `datetime.strptime(s, "%Y-%m-%d").date()`: `%Y` is exactly four
digits, `%m` and `%d` are as above, the separators are literal dashes, the
whole string must be consumed, and the `date` constructor requires the year
to be at least 1 (`MINYEAR`) and the day to exist in the month.  A `None`
result models the `ValueError` that the callers catch. -/
def parseYMD (s : String) : Option Date :=
  match splitOnDash s.data with
  | [ys, ms, ds] =>
      if ys.all isAsciiDigit && decide (ys.length = 4)
          && monthField ms && dayField ds then
        let y := digitsVal ys
        let m := digitsVal ms
        let d := digitsVal ds
        if decide (1 ≤ y) && decide (d ≤ daysInMonth y m) then
          some ⟨y, m, d⟩
        else none
      else none
  | _ => none

/-- The age computation of `src/app.py` line 185:
`(today.year - dob.year) - ((today.month, today.day) < (dob.month, dob.day))`,
with Python's lexicographic tuple comparison written out. -/
def ageOn (today dob : Date) : Int :=
  ((today.year : Int) - (dob.year : Int)) -
    (if today.month < dob.month ∨ (today.month = dob.month ∧ today.day < dob.day)
     then 1 else 0)

/-- Model of `validate_age_realistic` (`src/app.py` lines 174-187): strip the
input, parse it as `YYYY-MM-DD` (a failed parse returns `false`), and check
that the computed age is between 18 and 120.  The source reads "today" from
the wall clock (`datetime.utcnow().date()`); here it is an explicit
parameter. -/
def validate_age_realistic (today : Date) (dob : String) : Bool :=
  match parseYMD (pyStrip dob) with
  | none => false
  | some d => decide (18 ≤ ageOn today d ∧ ageOn today d ≤ 120)

/-- Model of `validate_age_18_120` (`src/archive/server.py` lines 38-45).
Its body is the same computation as `validate_age_realistic` (it uses
`date.today()` for the wall clock and catches `Exception` rather than
`ValueError`; neither difference is observable in the embedding). -/
def validate_age_18_120 (today : Date) (dob : String) : Bool :=
  validate_age_realistic today dob

/-! ## Outcome normalization — `pretty_outcome`, `src/app.py` lines 39-44
(identical in `src/archive/server.py` lines 70-78), and the message mapping
of the `evaluate` route, `src/app.py` lines 104-111. -/

/-- The decision-summary object of the API response, as read by the code:
`pretty_outcome` looks only at the `outcome` key; the remaining keys
(`score`, `tags`, `services`, `outcome_reasons`) are carried around but never
inspected, so their value types are immaterial to the embedding. -/
structure Summary where
  outcome : Option String := none
  score : Option Int := none
  tags : List String := []
  services : List String := []
  outcome_reasons : List String := []
deriving Repr

/-- A summary carrying only an outcome, every other key absent. -/
def Summary.ofOutcome (o : Option String) : Summary :=
  { outcome := o }

/-- Model of `pretty_outcome` (`src/app.py` lines 39-44):
`raw = (summary.get("outcome") or "").strip().lower()`, three synonym sets,
and otherwise `summary.get("outcome") or "Unknown"` (Python's `or` takes the
right operand when the outcome is missing or the empty string). -/
def pretty_outcome (summary : Summary) : String :=
  let raw := pyLower (pyStrip (summary.outcome.getD ""))
  if raw ∈ ["approve", "approved"] then "Approved"
  else if raw ∈ ["manual review", "manual_review", "review"] then "Manual Review"
  else if raw ∈ ["deny", "denied", "declined", "rejected"] then "Denied"
  else match summary.outcome with
       | none => "Unknown"
       | some s => if s = "" then "Unknown" else s

/-- Model of the message selection in the `evaluate` route
(`src/app.py` lines 104-111, identical in `src/archive/server.py`
lines 150-157), applied to the result of `pretty_outcome`. -/
def message_for (outcome : String) : String :=
  if outcome = "Approved" then "Congratulations! You are approved."
  else if outcome = "Manual Review" then
    "Your application is under review. Please wait for further updates."
  else if outcome = "Denied" then
    "Unfortunately, we cannot approve your application at this time."
  else "Unexpected outcome: " ++ outcome

/-! ## Form data and payload building — `build_payload`,
`src/app.py` lines 134-150 (identical in `src/archive/server.py`
lines 47-63). -/

/-- The inbound form: a flat mapping of field name to string value.  A `none`
field models an absent key (`f.get(k)` returning `None`). -/
structure FormData where
  name_first : Option String := none
  name_last : Option String := none
  birth_date : Option String := none
  ssn : Option String := none
  email : Option String := none
  address_line1 : Option String := none
  address_line2 : Option String := none
  address_city : Option String := none
  address_state : Option String := none
  address_postal_code : Option String := none
deriving Repr

/-- The filter of `build_payload`'s comprehension
(`{k: v for k, v in payload.items() if v not in ("", None)}`). -/
def dropEmpty (kv : String × Option String) : Option (String × String) :=
  match kv.2 with
  | none => none
  | some v => if v = "" then none else some (kv.1, v)

/-- Model of `build_payload` (`src/app.py` lines 134-150): each field is
fetched with `f.get(...) or ""` and stripped, the email is additionally
lower-cased and the state upper-cased, `address_line_2` becomes `None` when
blank (`... or None`), the country code is the constant `"US"`, and entries
whose value is `""` or `None` are dropped.  The result is the dict in
insertion order. -/
def build_payload (f : FormData) : List (String × String) :=
  ([("name_first", some (pyStrip (f.name_first.getD ""))),
    ("name_last", some (pyStrip (f.name_last.getD ""))),
    ("birth_date", some (pyStrip (f.birth_date.getD ""))),
    ("document_ssn", some (pyStrip (f.ssn.getD ""))),
    ("email_address", some (pyLower (pyStrip (f.email.getD "")))),
    ("address_line_1", some (pyStrip (f.address_line1.getD ""))),
    ("address_line_2",
      if pyStrip (f.address_line2.getD "") = "" then none
      else some (pyStrip (f.address_line2.getD ""))),
    ("address_city", some (pyStrip (f.address_city.getD ""))),
    ("address_state", some (pyUpper (pyStrip (f.address_state.getD "")))),
    ("address_postal_code", some (pyStrip (f.address_postal_code.getD ""))),
    ("address_country_code", some "US")]).filterMap dropEmpty

/-! ## The validating `evaluate` route — `src/archive/server.py`
lines 86-132 — and the non-validating one — `src/app.py` lines 51-87. -/

/-- Everything after the last `'@'` of the list: Python's
`email.split("@")[-1]` (the whole string when there is no `'@'`). -/
def afterLastAt (l : List Char) : List Char :=
  ((l.reverse.takeWhile (fun c => !(c == '@'))).reverse)

/-- One conditional `issues.append(msg)` of the route. -/
def issueIf (b : Bool) (msg : String) : List String :=
  if b then [msg] else []

/-- Model of the validation section of the `evaluate` route of
`src/archive/server.py` (lines 92-114): the nine field rules, evaluated
independently, each appending its message to `issues` in source order. -/
def evaluate_issues (today : Date) (d : FormData) : List String :=
  let name_first := pyStrip (d.name_first.getD "")
  let name_last := pyStrip (d.name_last.getD "")
  let birth_date := pyStrip (d.birth_date.getD "")
  let ssn := pyStrip (d.ssn.getD "")
  let email := pyStrip (d.email.getD "")
  let state := pyUpper (pyStrip (d.address_state.getD ""))
  let addr1 := pyStrip (d.address_line1.getD "")
  let city := pyStrip (d.address_city.getD "")
  let postal := pyStrip (d.address_postal_code.getD "")
  issueIf (name_first = "") "First name is required."
    ++ issueIf (name_last = "") "Last name is required."
    ++ issueIf (!validate_age_18_120 today birth_date)
        "DOB must be YYYY-MM-DD and age between 18–120."
    ++ issueIf (!(decide (ssn.length = 9) && ssn.data.all isAsciiDigit))
        "SSN must be exactly 9 digits (numbers only)."
    ++ issueIf (!(email.data.contains '@' && (afterLastAt email.data).contains '.'))
        "Email must look like name@example.com."
    ++ issueIf (addr1 = "") "Address Line 1 is required."
    ++ issueIf (city = "") "City is required."
    ++ issueIf (!(decide (state ∈ validStatesList)))
        "State must be a valid 2-letter US code (e.g., NY, CA)."
    ++ issueIf (postal = "") "Zip/Postal Code is required."

/-- Where a request to the `evaluate` route gets to, up to the boundary of
the outbound network call (the response post-processing that follows a call
is outside this model). -/
inductive HandlerStep where
  /-- The route returned the list of validation error messages (HTTP 400)
  without attempting the outbound call. -/
  | validationFailure (msgs : List String)
  /-- `load_credentials` raised; the route returned HTTP 500 without
  attempting the outbound call. -/
  | configFailure
  /-- The route reached `post_evaluation`, i.e. the outbound network request
  was attempted with the given payload. -/
  | networkCall (payload : List (String × String))
deriving DecidableEq, Repr

/-- Model of the `evaluate` route of `src/archive/server.py` (lines 86-132)
up to the network boundary: collect the validation issues; if any, return
them (no network call); otherwise build the payload, load credentials
(`credsOk` says whether both secrets are present), and only then attempt the
outbound request. -/
def server_evaluate (today : Date) (credsOk : Bool) (d : FormData) :
    HandlerStep :=
  let issues := evaluate_issues today d
  if issues ≠ [] then .validationFailure issues
  else if credsOk then .networkCall (build_payload d)
  else .configFailure

/-- Model of the `evaluate` route of `src/app.py` (lines 51-87) up to the
network boundary: it builds the payload and, as soon as credentials load,
attempts the outbound request — no field validation happens at all. -/
def app_evaluate (credsOk : Bool) (d : FormData) : HandlerStep :=
  if credsOk then .networkCall (build_payload d)
  else .configFailure

/-- Modelled from the spec (claim C9): a string consisting of exactly nine
ASCII decimal digits and nothing else. -/
def ssnShape (s : String) : Bool :=
  decide (s.length = 9) && s.data.all isAsciiDigit

/-! ## Helper lemmas: ASCII case mapping -/

/-- Converting a scalar value below the surrogate range to a `Char` and back
is the identity. -/
theorem toNat_ofNat_of_lt {n : Nat} (h : n < 55296) : (Char.ofNat n).toNat = n := by
  have hv : n.isValidChar := Or.inl h
  simp [Char.ofNat, hv, Char.ofNatAux, Char.toNat, UInt32.toNat]

/-- Upper-casing after lower-casing is plain upper-casing (ASCII). -/
theorem toUpper_toLower (c : Char) : c.toLower.toUpper = c.toUpper := by
  by_cases h : c.toNat ≥ 65 ∧ c.toNat ≤ 90
  · have h32 : c.toNat + 32 < 55296 := by omega
    have ht : (Char.ofNat (c.toNat + 32)).toNat = c.toNat + 32 := toNat_ofNat_of_lt h32
    have h3 : ¬(c.toNat ≥ 97 ∧ c.toNat ≤ 122) := by omega
    have h2 : c.toNat + 32 ≥ 97 ∧ c.toNat + 32 ≤ 122 := by omega
    simp [Char.toLower, Char.toUpper, h, h3, ht, h2]
  · simp [Char.toLower, Char.toUpper, h]

/-- Upper-casing is idempotent. -/
theorem toUpper_toUpper (c : Char) : c.toUpper.toUpper = c.toUpper := by
  by_cases h : c.toNat ≥ 97 ∧ c.toNat ≤ 122
  · have h32 : c.toNat - 32 < 55296 := by omega
    have ht : (Char.ofNat (c.toNat - 32)).toNat = c.toNat - 32 := toNat_ofNat_of_lt h32
    have e1 : c.toUpper = Char.ofNat (c.toNat - 32) := by simp [Char.toUpper, h]
    rw [e1]
    simp only [Char.toUpper, ht]
    rw [if_neg (by omega)]
  · simp [Char.toUpper, h]

/-- Upper-casing a lower-cased string equals upper-casing the original. -/
theorem pyUpper_pyLower (s : String) : pyUpper (pyLower s) = pyUpper s := by
  simp [pyUpper, pyLower, List.map_map, Function.comp_def, toUpper_toLower]

/-- `pyUpper` is idempotent. -/
theorem pyUpper_pyUpper (s : String) : pyUpper (pyUpper s) = pyUpper s := by
  simp [pyUpper, List.map_map, Function.comp_def, toUpper_toUpper]

/-! ## Helper lemmas: what the email matchers accept -/

/-- Language of `afterDot`. -/
theorem afterDot_iff (l : List Char) :
    afterDot l = true ↔ ∃ r, l = '.' :: r ∧ matchTld r = true := by
  rw [afterDot.eq_def]
  split
  · rename_i r
    simp
  · rename_i h
    simp only [Bool.false_eq_true, false_iff]
    rintro ⟨r, rfl, _⟩
    exact h r rfl

/-- Language of `matchTld`: a nonempty run of `[^@\s]` characters, possibly
followed by one trailing newline (the `$` allowance). -/
theorem matchTld_iff (l : List Char) :
    matchTld l = true ↔
      ∃ c, c ≠ [] ∧ c.all emailChar = true ∧ (l = c ∨ l = c ++ ['\n']) := by
  induction l with
  | nil =>
      simp only [matchTld, Bool.false_eq_true, false_iff]
      rintro ⟨c, hc, _, h | h⟩
      · exact hc h.symm
      · exact absurd h.symm (by simp)
  | cons x rest ih =>
      simp only [matchTld, Bool.and_eq_true, Bool.or_eq_true]
      constructor
      · rintro ⟨hx, hend | hm⟩
        · have hr : rest = [] ∨ rest = ['\n'] := by
            simpa [dollarEnd] using hend
          rcases hr with rfl | rfl
          · exact ⟨[x], by simp, by simp [hx], Or.inl rfl⟩
          · exact ⟨[x], by simp, by simp [hx], Or.inr rfl⟩
        · obtain ⟨c, hc, hall, hor⟩ := ih.mp hm
          refine ⟨x :: c, by simp, by simp [hx, hall], ?_⟩
          rcases hor with rfl | rfl
          · exact Or.inl rfl
          · exact Or.inr rfl
      · rintro ⟨c, hc, hall, h | h⟩
        · subst h
          simp only [List.all_cons, Bool.and_eq_true] at hall
          refine ⟨hall.1, ?_⟩
          rcases rest with _ | ⟨z, c''⟩
          · exact Or.inl (by simp [dollarEnd])
          · exact Or.inr (ih.mpr ⟨z :: c'', by simp, hall.2, Or.inl rfl⟩)
        · rcases c with _ | ⟨y, c'⟩
          · exact absurd rfl hc
          simp only [List.cons_append] at h
          obtain ⟨rfl, hr⟩ := List.cons.inj h
          simp only [List.all_cons, Bool.and_eq_true] at hall
          refine ⟨hall.1, ?_⟩
          rcases c' with _ | ⟨z, c''⟩
          · exact Or.inl (by simp [dollarEnd, hr])
          · exact Or.inr (ih.mpr ⟨z :: c'', by simp, hall.2, Or.inr hr⟩)

/-- Language of `matchDomain`: `domain.tld` over `[^@\s]`, possibly followed
by one trailing newline. -/
theorem matchDomain_iff (l : List Char) :
    matchDomain l = true ↔
      ∃ b c, b ≠ [] ∧ c ≠ [] ∧ b.all emailChar = true ∧ c.all emailChar = true ∧
        (l = b ++ '.' :: c ∨ l = b ++ '.' :: (c ++ ['\n'])) := by
  induction l with
  | nil =>
      simp only [matchDomain, Bool.false_eq_true, false_iff]
      rintro ⟨b, c, hb, _, _, _, h | h⟩ <;>
        exact absurd h.symm (by simp [hb])
  | cons x rest ih =>
      simp only [matchDomain, Bool.and_eq_true, Bool.or_eq_true]
      constructor
      · rintro ⟨hx, hdot | hm⟩
        · obtain ⟨r, rfl, htld⟩ := (afterDot_iff rest).mp hdot
          obtain ⟨c, hc, hallc, hor⟩ := (matchTld_iff r).mp htld
          refine ⟨[x], c, by simp, hc, by simp [hx], hallc, ?_⟩
          rcases hor with rfl | rfl
          · exact Or.inl rfl
          · exact Or.inr rfl
        · obtain ⟨b, c, hb, hc, hallb, hallc, hor⟩ := ih.mp hm
          refine ⟨x :: b, c, by simp, hc, by simp [hx, hallb], hallc, ?_⟩
          rcases hor with rfl | rfl
          · exact Or.inl rfl
          · exact Or.inr rfl
      · rintro ⟨b, c, hb, hc, hallb, hallc, h | h⟩
        · rcases b with _ | ⟨y, b'⟩
          · exact absurd rfl hb
          simp only [List.cons_append] at h
          obtain ⟨rfl, hr⟩ := List.cons.inj h
          simp only [List.all_cons, Bool.and_eq_true] at hallb
          refine ⟨hallb.1, ?_⟩
          rcases b' with _ | ⟨z, b''⟩
          · exact Or.inl ((afterDot_iff rest).mpr
              ⟨c, by simpa using hr, (matchTld_iff c).mpr ⟨c, hc, hallc, Or.inl rfl⟩⟩)
          · exact Or.inr (ih.mpr ⟨z :: b'', c, by simp, hc, hallb.2, hallc, Or.inl hr⟩)
        · rcases b with _ | ⟨y, b'⟩
          · exact absurd rfl hb
          simp only [List.cons_append] at h
          obtain ⟨rfl, hr⟩ := List.cons.inj h
          simp only [List.all_cons, Bool.and_eq_true] at hallb
          refine ⟨hallb.1, ?_⟩
          rcases b' with _ | ⟨z, b''⟩
          · exact Or.inl ((afterDot_iff rest).mpr
              ⟨c ++ ['\n'], by simpa using hr,
                (matchTld_iff (c ++ ['\n'])).mpr ⟨c, hc, hallc, Or.inr rfl⟩⟩)
          · exact Or.inr (ih.mpr ⟨z :: b'', c, by simp, hc, hallb.2, hallc, Or.inr hr⟩)

/-- Language of `afterAt`. -/
theorem afterAt_iff (l : List Char) :
    afterAt l = true ↔ ∃ r, l = '@' :: r ∧ matchDomain r = true := by
  rw [afterAt.eq_def]
  split
  · rename_i r
    simp
  · rename_i h
    simp only [Bool.false_eq_true, false_iff]
    rintro ⟨r, rfl, _⟩
    exact h r rfl

/-- Language of `matchLocal`, i.e. of `EMAIL_RE` under `re.match`:
`local@domain.tld` over `[^@\s]`, possibly followed by one trailing
newline. -/
theorem matchLocal_iff (l : List Char) :
    matchLocal l = true ↔
      ∃ a b c, a ≠ [] ∧ b ≠ [] ∧ c ≠ [] ∧
        a.all emailChar = true ∧ b.all emailChar = true ∧ c.all emailChar = true ∧
        (l = a ++ '@' :: (b ++ '.' :: c) ∨ l = a ++ '@' :: (b ++ '.' :: (c ++ ['\n']))) := by
  induction l with
  | nil =>
      simp only [matchLocal, Bool.false_eq_true, false_iff]
      rintro ⟨a, b, c, ha, _, _, _, _, _, h | h⟩ <;>
        exact absurd h.symm (by simp [ha])
  | cons x rest ih =>
      simp only [matchLocal, Bool.and_eq_true, Bool.or_eq_true]
      constructor
      · rintro ⟨hx, hat | hm⟩
        · obtain ⟨r, rfl, hdom⟩ := (afterAt_iff rest).mp hat
          obtain ⟨b, c, hb, hc, hallb, hallc, hor⟩ := (matchDomain_iff r).mp hdom
          refine ⟨[x], b, c, by simp, hb, hc, by simp [hx], hallb, hallc, ?_⟩
          rcases hor with rfl | rfl
          · exact Or.inl rfl
          · exact Or.inr rfl
        · obtain ⟨a, b, c, ha, hb, hc, halla, hallb, hallc, hor⟩ := ih.mp hm
          refine ⟨x :: a, b, c, by simp, hb, hc, by simp [hx, halla], hallb, hallc, ?_⟩
          rcases hor with rfl | rfl
          · exact Or.inl rfl
          · exact Or.inr rfl
      · rintro ⟨a, b, c, ha, hb, hc, halla, hallb, hallc, h | h⟩
        · rcases a with _ | ⟨y, a'⟩
          · exact absurd rfl ha
          simp only [List.cons_append] at h
          obtain ⟨rfl, hr⟩ := List.cons.inj h
          simp only [List.all_cons, Bool.and_eq_true] at halla
          refine ⟨halla.1, ?_⟩
          rcases a' with _ | ⟨z, a''⟩
          · exact Or.inl ((afterAt_iff rest).mpr
              ⟨b ++ '.' :: c, by simpa using hr,
                (matchDomain_iff _).mpr ⟨b, c, hb, hc, hallb, hallc, Or.inl rfl⟩⟩)
          · exact Or.inr (ih.mpr
              ⟨z :: a'', b, c, by simp, hb, hc, halla.2, hallb, hallc, Or.inl hr⟩)
        · rcases a with _ | ⟨y, a'⟩
          · exact absurd rfl ha
          simp only [List.cons_append] at h
          obtain ⟨rfl, hr⟩ := List.cons.inj h
          simp only [List.all_cons, Bool.and_eq_true] at halla
          refine ⟨halla.1, ?_⟩
          rcases a' with _ | ⟨z, a''⟩
          · exact Or.inl ((afterAt_iff rest).mpr
              ⟨b ++ '.' :: (c ++ ['\n']), by simpa using hr,
                (matchDomain_iff _).mpr ⟨b, c, hb, hc, hallb, hallc, Or.inr rfl⟩⟩)
          · exact Or.inr (ih.mpr
              ⟨z :: a'', b, c, by simp, hb, hc, halla.2, hallb, hallc, Or.inr hr⟩)

/-- Language of `matchTldShape`: a nonempty run of `[^@\s]` characters. -/
theorem matchTldShape_iff (l : List Char) :
    matchTldShape l = true ↔ l ≠ [] ∧ l.all emailChar = true := by
  induction l with
  | nil => simp [matchTldShape]
  | cons x rest ih =>
      simp only [matchTldShape, Bool.and_eq_true, Bool.or_eq_true, List.isEmpty_iff,
        List.all_cons, ne_eq, reduceCtorEq, not_false_eq_true, true_and]
      constructor
      · rintro ⟨hx, rfl | hm⟩
        · simp [hx]
        · simp [hx, (ih.mp hm).2]
      · rintro ⟨hx, hall⟩
        refine ⟨hx, ?_⟩
        rcases rest with _ | ⟨z, r⟩
        · exact Or.inl rfl
        · exact Or.inr (ih.mpr ⟨by simp, hall⟩)

/-- Language of `afterDotShape`. -/
theorem afterDotShape_iff (l : List Char) :
    afterDotShape l = true ↔ ∃ r, l = '.' :: r ∧ matchTldShape r = true := by
  rw [afterDotShape.eq_def]
  split
  · rename_i r
    simp
  · rename_i h
    simp only [Bool.false_eq_true, false_iff]
    rintro ⟨r, rfl, _⟩
    exact h r rfl

/-- Language of `matchDomainShape`: exactly `domain.tld` over `[^@\s]`. -/
theorem matchDomainShape_iff (l : List Char) :
    matchDomainShape l = true ↔
      ∃ b c, b ≠ [] ∧ c ≠ [] ∧ b.all emailChar = true ∧ c.all emailChar = true ∧
        l = b ++ '.' :: c := by
  induction l with
  | nil =>
      simp only [matchDomainShape, Bool.false_eq_true, false_iff]
      rintro ⟨b, c, hb, _, _, _, h⟩
      exact absurd h.symm (by simp [hb])
  | cons x rest ih =>
      simp only [matchDomainShape, Bool.and_eq_true, Bool.or_eq_true]
      constructor
      · rintro ⟨hx, hdot | hm⟩
        · obtain ⟨r, rfl, htld⟩ := (afterDotShape_iff rest).mp hdot
          obtain ⟨hr, hallr⟩ := (matchTldShape_iff r).mp htld
          exact ⟨[x], r, by simp, hr, by simp [hx], hallr, rfl⟩
        · obtain ⟨b, c, hb, hc, hallb, hallc, rfl⟩ := ih.mp hm
          exact ⟨x :: b, c, by simp, hc, by simp [hx, hallb], hallc, rfl⟩
      · rintro ⟨b, c, hb, hc, hallb, hallc, h⟩
        rcases b with _ | ⟨y, b'⟩
        · exact absurd rfl hb
        simp only [List.cons_append] at h
        obtain ⟨rfl, hr⟩ := List.cons.inj h
        simp only [List.all_cons, Bool.and_eq_true] at hallb
        refine ⟨hallb.1, ?_⟩
        rcases b' with _ | ⟨z, b''⟩
        · exact Or.inl ((afterDotShape_iff rest).mpr
            ⟨c, by simpa using hr, (matchTldShape_iff c).mpr ⟨hc, hallc⟩⟩)
        · exact Or.inr (ih.mpr ⟨z :: b'', c, by simp, hc, hallb.2, hallc, hr⟩)

/-- Language of `afterAtShape`. -/
theorem afterAtShape_iff (l : List Char) :
    afterAtShape l = true ↔ ∃ r, l = '@' :: r ∧ matchDomainShape r = true := by
  rw [afterAtShape.eq_def]
  split
  · rename_i r
    simp
  · rename_i h
    simp only [Bool.false_eq_true, false_iff]
    rintro ⟨r, rfl, _⟩
    exact h r rfl

/-- Language of `matchLocalShape`, i.e. of the spec's claimed email shape:
exactly `local@domain.tld` over `[^@\s]`. -/
theorem matchLocalShape_iff (l : List Char) :
    matchLocalShape l = true ↔
      ∃ a b c, a ≠ [] ∧ b ≠ [] ∧ c ≠ [] ∧
        a.all emailChar = true ∧ b.all emailChar = true ∧ c.all emailChar = true ∧
        l = a ++ '@' :: (b ++ '.' :: c) := by
  induction l with
  | nil =>
      simp only [matchLocalShape, Bool.false_eq_true, false_iff]
      rintro ⟨a, b, c, ha, _, _, _, _, _, h⟩
      exact absurd h.symm (by simp [ha])
  | cons x rest ih =>
      simp only [matchLocalShape, Bool.and_eq_true, Bool.or_eq_true]
      constructor
      · rintro ⟨hx, hat | hm⟩
        · obtain ⟨r, rfl, hdom⟩ := (afterAtShape_iff rest).mp hat
          obtain ⟨b, c, hb, hc, hallb, hallc, rfl⟩ := (matchDomainShape_iff r).mp hdom
          exact ⟨[x], b, c, by simp, hb, hc, by simp [hx], hallb, hallc, rfl⟩
        · obtain ⟨a, b, c, ha, hb, hc, halla, hallb, hallc, rfl⟩ := ih.mp hm
          exact ⟨x :: a, b, c, by simp, hb, hc, by simp [hx, halla], hallb, hallc, rfl⟩
      · rintro ⟨a, b, c, ha, hb, hc, halla, hallb, hallc, h⟩
        rcases a with _ | ⟨y, a'⟩
        · exact absurd rfl ha
        simp only [List.cons_append] at h
        obtain ⟨rfl, hr⟩ := List.cons.inj h
        simp only [List.all_cons, Bool.and_eq_true] at halla
        refine ⟨halla.1, ?_⟩
        rcases a' with _ | ⟨z, a''⟩
        · exact Or.inl ((afterAtShape_iff rest).mpr
            ⟨b ++ '.' :: c, by simpa using hr,
              (matchDomainShape_iff _).mpr ⟨b, c, hb, hc, hallb, hallc, rfl⟩⟩)
        · exact Or.inr (ih.mpr ⟨z :: a'', b, c, by simp, hb, hc, halla.2, hallb, hallc, hr⟩)

/-! ## Claim C3 — email validation -/

/-- Claim C3, counterexample: the claim says `validate_email` accepts
exactly the strings of shape `local-part@domain.tld` with no whitespace in
the parts; but the string `"a@b.com\n"` — which ends in a newline and is not
of that shape — is accepted, because Python's `$` also matches just before a
trailing newline. -/
theorem validate_email_c3_cex :
    validate_email "a@b.com\n" = true ∧ emailShape "a@b.com\n" = false := by
  constructor <;> decide

/-- Claim C3, amended: email validation accepts `"a@b.com"` and rejects
`"a@b"`, `"a b@c.com"`, `"abc.com"`; in general it accepts exactly the
strings of shape `local-part@domain.tld` (no whitespace or `@` inside the
parts, at least one `.` after the `@`), optionally followed by a single
trailing newline character. -/
theorem validate_email_c3 :
    validate_email "a@b.com" = true ∧ validate_email "a@b" = false ∧
    validate_email "a b@c.com" = false ∧ validate_email "abc.com" = false ∧
    ∀ s : String, validate_email s = true ↔
      (emailShape s = true ∨ ∃ core : String, emailShape core = true ∧ s = core ++ "\n") := by
  refine ⟨by decide, by decide, by decide, by decide, ?_⟩
  intro s
  constructor
  · intro h
    obtain ⟨a, b, c, ha, hb, hc, halla, hallb, hallc, hor | hor⟩ :=
      (matchLocal_iff s.data).mp h
    · exact Or.inl ((matchLocalShape_iff s.data).mpr
        ⟨a, b, c, ha, hb, hc, halla, hallb, hallc, hor⟩)
    · refine Or.inr ⟨⟨a ++ '@' :: (b ++ '.' :: c)⟩, ?_, ?_⟩
      · exact (matchLocalShape_iff _).mpr
          ⟨a, b, c, ha, hb, hc, halla, hallb, hallc, rfl⟩
      · apply String.ext
        show s.data = (a ++ '@' :: (b ++ '.' :: c)) ++ ['\n']
        rw [hor]
        simp
  · rintro (h | ⟨core, hcore, rfl⟩)
    · obtain ⟨a, b, c, ha, hb, hc, halla, hallb, hallc, hd⟩ :=
        (matchLocalShape_iff s.data).mp h
      exact (matchLocal_iff s.data).mpr
        ⟨a, b, c, ha, hb, hc, halla, hallb, hallc, Or.inl hd⟩
    · obtain ⟨a, b, c, ha, hb, hc, halla, hallb, hallc, hd⟩ :=
        (matchLocalShape_iff core.data).mp hcore
      apply (matchLocal_iff (core ++ "\n").data).mpr
      refine ⟨a, b, c, ha, hb, hc, halla, hallb, hallc, Or.inr ?_⟩
      show core.data ++ ['\n'] = _
      rw [hd]
      simp

/-- Claim C3, witness: the characterization applied at a concrete address. -/
theorem validate_email_c3_witness :
    validate_email "john.doe@mail.example.org" = true := by
  exact (validate_email_c3.2.2.2.2 "john.doe@mail.example.org").mpr (Or.inl (by decide))

/-! ## Claim C9 — SSN validation -/

/-- Claim C9, counterexample: the claim says `validate_ssn` accepts exactly
the strings of nine decimal digits and nothing else; but
`"123456789\n"` — ten characters, ending in a newline — is accepted,
because Python's `$` also matches just before a trailing newline. -/
theorem validate_ssn_c9_cex :
    validate_ssn "123456789\n" = true ∧ ssnShape "123456789\n" = false := by
  constructor <;> decide

/-- Claim C9, amended: SSN validation accepts exactly the strings of nine
ASCII decimal digits optionally followed by a single trailing newline
character; it rejects every other string — other lengths, dashes or other
separators, and non-numeric characters. -/
theorem validate_ssn_c9 :
    validate_ssn "123456789" = true ∧ validate_ssn "123-45-6789" = false ∧
    validate_ssn "12345678" = false ∧ validate_ssn "1234567890" = false ∧
    validate_ssn "a23456789" = false ∧
    ∀ s : String, validate_ssn s = true ↔
      (ssnShape s = true ∨ ∃ core : String, ssnShape core = true ∧ s = core ++ "\n") := by
  refine ⟨by decide, by decide, by decide, by decide, by decide, ?_⟩
  intro s
  simp only [validate_ssn, ssnShape, Bool.and_eq_true, beq_iff_eq, decide_eq_true_eq]
  constructor
  · rintro ⟨⟨h9, hall⟩, hend⟩
    have hd : s.data.drop 9 = [] ∨ s.data.drop 9 = ['\n'] := by
      simpa [dollarEnd] using hend
    rcases hd with hd | hd
    · left
      have hlen : s.data.length ≤ 9 := by
        simpa using List.drop_eq_nil_iff.mp hd
      have ht : s.data.take 9 = s.data := List.take_of_length_le hlen
      rw [ht] at h9 hall
      exact ⟨h9, hall⟩
    · right
      refine ⟨⟨s.data.take 9⟩, ⟨h9, hall⟩, ?_⟩
      apply String.ext
      show s.data = s.data.take 9 ++ ['\n']
      conv_lhs => rw [← List.take_append_drop 9 s.data]
      rw [hd]
  · rintro (⟨h9, hall⟩ | ⟨core, ⟨h9, hall⟩, rfl⟩)
    · have h9' : s.data.length = 9 := h9
      have ht : s.data.take 9 = s.data := List.take_of_length_le (le_of_eq h9')
      have hdr : s.data.drop 9 = [] := List.drop_eq_nil_iff.mpr (le_of_eq h9')
      rw [ht, hdr]
      exact ⟨⟨h9', hall⟩, by simp [dollarEnd]⟩
    · have h9' : core.data.length = 9 := h9
      have hdata : (core ++ "\n").data = core.data ++ ['\n'] := rfl
      rw [hdata]
      have ht : (core.data ++ ['\n']).take 9 = core.data := by
        rw [← h9']
        exact List.take_left core.data ['\n']
      have hdr : (core.data ++ ['\n']).drop 9 = ['\n'] := by
        rw [← h9']
        exact List.drop_left core.data ['\n']
      rw [ht, hdr]
      exact ⟨⟨h9', hall⟩, by simp [dollarEnd]⟩

/-- Claim C9, witness: the characterization applied at a concrete SSN. -/
theorem validate_ssn_c9_witness : validate_ssn "000000000" = true := by
  exact (validate_ssn_c9.2.2.2.2.2 "000000000").mpr (Or.inl (by decide))

/-! ## Helper lemmas: issue lists and outcome normalization -/

/-- Membership in one conditional `issues.append`. -/
theorem mem_issueIf {b : Bool} {m msg : String} :
    m ∈ issueIf b msg ↔ (b = true ∧ m = msg) := by
  cases b <;> simp [issueIf]

/-- A conditional `issues.append` contributes nothing iff its condition is
false. -/
theorem issueIf_eq_nil {b : Bool} {msg : String} : issueIf b msg = [] ↔ b = false := by
  cases b <;> simp [issueIf]

/-- `pretty_outcome` reads only the `outcome` key of the summary. -/
theorem pretty_outcome_congr (sm : Summary) :
    pretty_outcome sm = pretty_outcome (Summary.ofOutcome sm.outcome) := by
  simp [pretty_outcome, Summary.ofOutcome]

/-! ## Claim C1 — the outcome normalizer's categories -/

/-- Claim C1, counterexample: the claim says every result is one of the four
canonical categories, with an unrecognized raw value reported only inside
the message; but `pretty_outcome` returns the unrecognized raw outcome
string itself (`summary.get("outcome") or "Unknown"`), so on
`{"outcome": "Gibberish"}` the result is `"Gibberish"`, not a canonical
category. -/
theorem pretty_outcome_c1_cex :
    pretty_outcome (Summary.ofOutcome (some "Gibberish")) = "Gibberish" ∧
    "Gibberish" ∉ ["Approved", "Manual Review", "Denied", "Unknown"] := by
  constructor <;> decide

/-- Claim C1, amended: the normalizer never fails on a missing outcome or on
any outcome string; a missing or empty outcome yields `"Unknown"`;
recognized synonyms yield a canonical category; but any other outcome string
is returned verbatim as the result (and the user-facing message then embeds
it as `"Unexpected outcome: <value>"`), so the result is either one of
`{Approved, Manual Review, Denied, Unknown}` or the raw outcome value
itself. -/
theorem pretty_outcome_c1 : ∀ sm : Summary,
    (sm.outcome = none → pretty_outcome sm = "Unknown") ∧
    (sm.outcome = some "" → pretty_outcome sm = "Unknown") ∧
    (∀ s : String, sm.outcome = some s → s ≠ "" →
      pyLower (pyStrip s) ∉ ["approve", "approved", "manual review", "manual_review",
        "review", "deny", "denied", "declined", "rejected"] →
      pretty_outcome sm = s ∧
      message_for (pretty_outcome sm) = "Unexpected outcome: " ++ s) ∧
    (pretty_outcome sm = "Approved" ∨ pretty_outcome sm = "Manual Review" ∨
      pretty_outcome sm = "Denied" ∨ pretty_outcome sm = "Unknown" ∨
      sm.outcome = some (pretty_outcome sm)) := by
  intro sm
  refine ⟨?_, ?_, ?_, ?_⟩
  · intro h
    rw [pretty_outcome_congr, h]
    decide
  · intro h
    rw [pretty_outcome_congr, h]
    decide
  · intro s hout hne hmem
    rw [pretty_outcome_congr, hout]
    simp only [List.mem_cons, List.not_mem_nil, or_false, not_or] at hmem
    obtain ⟨n1, n2, n3, n4, n5, n6, n7, n8, n9⟩ := hmem
    have hp : pretty_outcome (Summary.ofOutcome (some s)) = s := by
      simp [pretty_outcome, Summary.ofOutcome, n1, n2, n3, n4, n5, n6, n7, n8, n9, hne]
    rw [hp]
    refine ⟨rfl, ?_⟩
    have hA : s ≠ "Approved" := by rintro rfl; exact n2 (by decide)
    have hM : s ≠ "Manual Review" := by rintro rfl; exact n3 (by decide)
    have hD : s ≠ "Denied" := by rintro rfl; exact n7 (by decide)
    simp [message_for, hA, hM, hD]
  · rw [pretty_outcome_congr]
    rcases ho : sm.outcome with _ | s
    · exact Or.inr (Or.inr (Or.inr (Or.inl (by decide))))
    · by_cases c1 : pyLower (pyStrip s) ∈ (["approve", "approved"] : List String)
      · exact Or.inl (by simp [pretty_outcome, Summary.ofOutcome, c1])
      by_cases c2 : pyLower (pyStrip s) ∈
        (["manual review", "manual_review", "review"] : List String)
      · exact Or.inr (Or.inl (by simp [pretty_outcome, Summary.ofOutcome, c1, c2]))
      by_cases c3 : pyLower (pyStrip s) ∈
        (["deny", "denied", "declined", "rejected"] : List String)
      · exact Or.inr (Or.inr (Or.inl (by simp [pretty_outcome, Summary.ofOutcome, c1, c2, c3])))
      by_cases hs : s = ""
      · subst hs
        exact Or.inr (Or.inr (Or.inr (Or.inl (by decide))))
      · refine Or.inr (Or.inr (Or.inr (Or.inr ?_)))
        have hp : pretty_outcome (Summary.ofOutcome (some s)) = s := by
          simp [pretty_outcome, Summary.ofOutcome, c1, c2, c3, hs]
        rw [hp]

/-- Claim C1, witness: the amended claim applied to a concrete unrecognized
outcome. -/
theorem pretty_outcome_c1_witness :
    pretty_outcome (Summary.ofOutcome (some "weird")) = "weird" ∧
    message_for (pretty_outcome (Summary.ofOutcome (some "weird"))) =
      "Unexpected outcome: weird" :=
  (pretty_outcome_c1 (Summary.ofOutcome (some "weird"))).2.2.1 "weird" rfl
    (by decide) (by decide)

/-! ## Claim C2 — state-code validation -/

set_option maxRecDepth 10000 in
/-- Claim C2, counterexample: the claim says exactly 52 codes are accepted;
counting over all 676 upper-case two-letter strings, exactly 51 pass
`validate_state_code` (the `VALID_STATES` set has 51 elements: 50 states
plus DC; "52" miscounts). -/
theorem validate_state_code_c2_cex :
    ((List.range 26).flatMap (fun i => (List.range 26).map (fun j =>
      String.mk [Char.ofNat (65 + i), Char.ofNat (65 + j)]))).countP
        (fun s => validate_state_code s) = 51 := by
  decide

/-- Claim C2, amended: state-code validation accepts exactly the 51 known
codes (the 50 US states plus the District of Columbia), regardless of the
input's letter case, and rejects every other string: a string is accepted
iff its upper-casing belongs to the 51-element `VALID_STATES` set. -/
theorem validate_state_code_c2 :
    validStatesList.length = 51 ∧ validStatesList.Nodup ∧
    (∀ s : String, validate_state_code s = true ↔ pyUpper s ∈ validStatesList) ∧
    (∀ s : String, validate_state_code (pyLower s) = validate_state_code s ∧
      validate_state_code (pyUpper s) = validate_state_code s) := by
  refine ⟨by decide, by decide, ?_, ?_⟩
  · intro s
    simp [validate_state_code]
  · intro s
    refine ⟨?_, ?_⟩ <;> simp [validate_state_code, pyUpper_pyLower, pyUpper_pyUpper]

/-- Claim C2, witness: the characterization applied at a lower-case code. -/
theorem validate_state_code_c2_witness : validate_state_code "ca" = true :=
  (validate_state_code_c2.2.2.1 "ca").mpr (by decide)

/-! ## Claim C4 — outcome synonym mapping -/

/-- Claim C4: after trimming and case-folding, `approve`/`approved` map to
`Approved` with the congratulation message, the three review synonyms map to
`Manual Review` with the review message, and the four denial synonyms map to
`Denied` with the denial message; in particular `{"outcome": "APPROVE"}`
yields `Approved` and `{"outcome": "Manual_Review"}` yields
`Manual Review`. -/
theorem pretty_outcome_c4 :
    (∀ (sm : Summary) (s : String), sm.outcome = some s →
      (((pyLower (pyStrip s) = "approve" ∨ pyLower (pyStrip s) = "approved") →
        pretty_outcome sm = "Approved" ∧
        message_for (pretty_outcome sm) = "Congratulations! You are approved.") ∧
       ((pyLower (pyStrip s) = "manual review" ∨ pyLower (pyStrip s) = "manual_review" ∨
         pyLower (pyStrip s) = "review") →
        pretty_outcome sm = "Manual Review" ∧
        message_for (pretty_outcome sm) =
          "Your application is under review. Please wait for further updates.") ∧
       ((pyLower (pyStrip s) = "deny" ∨ pyLower (pyStrip s) = "denied" ∨
         pyLower (pyStrip s) = "declined" ∨ pyLower (pyStrip s) = "rejected") →
        pretty_outcome sm = "Denied" ∧
        message_for (pretty_outcome sm) =
          "Unfortunately, we cannot approve your application at this time."))) ∧
    pretty_outcome (Summary.ofOutcome (some "APPROVE")) = "Approved" ∧
    pretty_outcome (Summary.ofOutcome (some "Manual_Review")) = "Manual Review" := by
  refine ⟨?_, by decide, by decide⟩
  intro sm s hout
  rw [pretty_outcome_congr, hout]
  refine ⟨?_, ?_, ?_⟩
  · rintro (hn | hn) <;>
      simp [pretty_outcome, Summary.ofOutcome, hn, message_for]
  · rintro (hn | hn | hn) <;>
      simp [pretty_outcome, Summary.ofOutcome, hn, message_for]
  · rintro (hn | hn | hn | hn) <;>
      simp [pretty_outcome, Summary.ofOutcome, hn, message_for]

/-- Claim C4, witness: the synonym mapping applied at a concrete denial
outcome with surrounding whitespace and mixed case. -/
theorem pretty_outcome_c4_witness :
    pretty_outcome (Summary.ofOutcome (some "  Declined ")) = "Denied" :=
  ((pretty_outcome_c4.1 (Summary.ofOutcome (some "  Declined ")) "  Declined " rfl).2.2
    (Or.inr (Or.inr (Or.inl (by decide))))).1

/-! ## Claim C5 — birth-date / age validation -/

/-- Claim C5: `validate_age_realistic` passes exactly when the (stripped)
input parses as `YYYY-MM-DD` and the age computed relative to `today`
(year difference, minus one when the birth month/day has not yet occurred)
lies in the inclusive range 18 to 120; a malformed date yields `false`
(the `ValueError` is caught); an applicant turning exactly 18 today passes
and one aged 17 years and 364 days fails; ages 120 and 121 pass and fail
respectively. -/
theorem validate_age_c5 :
    (∀ (today : Date) (dob : String),
      validate_age_realistic today dob = true ↔
        ∃ d, parseYMD (pyStrip dob) = some d ∧ 18 ≤ ageOn today d ∧ ageOn today d ≤ 120) ∧
    validate_age_realistic ⟨2026, 10, 12⟩ "2008-10-12" = true ∧
    validate_age_realistic ⟨2026, 10, 12⟩ "2008-10-13" = false ∧
    validate_age_realistic ⟨2026, 10, 12⟩ "1906-10-12" = true ∧
    validate_age_realistic ⟨2026, 10, 12⟩ "1905-10-12" = false ∧
    validate_age_realistic ⟨2026, 10, 12⟩ "13/10/2008" = false := by
  refine ⟨?_, by decide, by decide, by decide, by decide, by decide⟩
  intro today dob
  rcases h : parseYMD (pyStrip dob) with _ | d <;> simp [validate_age_realistic, h]

/-- Claim C5, witness: the characterization applied at a concrete birth
date. -/
theorem validate_age_c5_witness :
    validate_age_realistic ⟨2026, 10, 12⟩ "1990-05-05" = true :=
  (validate_age_c5.1 ⟨2026, 10, 12⟩ "1990-05-05").mpr
    ⟨⟨1990, 5, 5⟩, by decide, by decide, by decide⟩

/-! ## Claim C6 — payload building -/

/-- Claim C6: `build_payload` trims every text field, lower-cases the email,
upper-cases the state code, always includes the constant country code
`"US"`, omits `address_line_2` exactly when it is absent or blank (and
otherwise carries its trimmed value, e.g. `"Apt 4"`), and drops every entry
whose value is empty after trimming; it is a total function, so it cannot
crash on missing optional fields. -/
theorem build_payload_c6 : ∀ f : FormData,
    (("address_country_code", "US") ∈ build_payload f) ∧
    (∀ v, ("address_line_2", v) ∈ build_payload f ↔
      pyStrip (f.address_line2.getD "") ≠ "" ∧ pyStrip (f.address_line2.getD "") = v) ∧
    (("address_line_2", "Apt 4") ∈ build_payload { address_line2 := some "Apt 4" }) ∧
    (∀ v, ("email_address", v) ∈ build_payload f ↔
      pyLower (pyStrip (f.email.getD "")) ≠ "" ∧ pyLower (pyStrip (f.email.getD "")) = v) ∧
    (∀ v, ("address_state", v) ∈ build_payload f ↔
      pyUpper (pyStrip (f.address_state.getD "")) ≠ "" ∧
        pyUpper (pyStrip (f.address_state.getD "")) = v) ∧
    (∀ v, ("name_first", v) ∈ build_payload f ↔
      pyStrip (f.name_first.getD "") ≠ "" ∧ pyStrip (f.name_first.getD "") = v) ∧
    (∀ v, ("name_last", v) ∈ build_payload f ↔
      pyStrip (f.name_last.getD "") ≠ "" ∧ pyStrip (f.name_last.getD "") = v) ∧
    (∀ v, ("birth_date", v) ∈ build_payload f ↔
      pyStrip (f.birth_date.getD "") ≠ "" ∧ pyStrip (f.birth_date.getD "") = v) ∧
    (∀ v, ("document_ssn", v) ∈ build_payload f ↔
      pyStrip (f.ssn.getD "") ≠ "" ∧ pyStrip (f.ssn.getD "") = v) ∧
    (∀ v, ("address_line_1", v) ∈ build_payload f ↔
      pyStrip (f.address_line1.getD "") ≠ "" ∧ pyStrip (f.address_line1.getD "") = v) ∧
    (∀ v, ("address_city", v) ∈ build_payload f ↔
      pyStrip (f.address_city.getD "") ≠ "" ∧ pyStrip (f.address_city.getD "") = v) ∧
    (∀ v, ("address_postal_code", v) ∈ build_payload f ↔
      pyStrip (f.address_postal_code.getD "") ≠ "" ∧
        pyStrip (f.address_postal_code.getD "") = v) ∧
    (∀ p ∈ build_payload f, p.2 ≠ "") := by
  intro f
  refine ⟨?_, ?_, by decide, ?_, ?_, ?_, ?_, ?_, ?_, ?_, ?_, ?_, ?_⟩
  case _ =>
    by_cases h2 : pyStrip (f.address_line2.getD "") = "" <;>
      simp [build_payload, dropEmpty, List.mem_filterMap, h2]
  all_goals try
    · intro v
      by_cases h2 : pyStrip (f.address_line2.getD "") = "" <;>
        simp [build_payload, dropEmpty, List.mem_filterMap, h2]
  rintro ⟨k, v⟩ hmem
  by_cases h2 : pyStrip (f.address_line2.getD "") = ""
  · simp [build_payload, dropEmpty, List.mem_filterMap, h2] at hmem
    rcases hmem with ⟨h1, -, rfl⟩ | ⟨h1, -, rfl⟩ | ⟨h1, -, rfl⟩ | ⟨h1, -, rfl⟩ |
      ⟨h1, -, rfl⟩ | ⟨h1, -, rfl⟩ | ⟨h1, -, rfl⟩ | ⟨h1, -, rfl⟩ | ⟨h1, -, rfl⟩ | ⟨-, rfl⟩ <;>
      first | exact h1 | simp
  · simp [build_payload, dropEmpty, List.mem_filterMap, h2] at hmem
    rcases hmem with ⟨h1, -, rfl⟩ | ⟨h1, -, rfl⟩ | ⟨h1, -, rfl⟩ | ⟨h1, -, rfl⟩ |
      ⟨h1, -, rfl⟩ | ⟨h1, -, rfl⟩ | ⟨-, rfl⟩ | ⟨h1, -, rfl⟩ | ⟨h1, -, rfl⟩ |
      ⟨h1, -, rfl⟩ | ⟨-, rfl⟩ <;>
      first | exact h1 | exact h2 | simp

/-- Claim C6, witness: the payload-builder facts applied at the empty form
(the country code is still present and nothing crashes). -/
theorem build_payload_c6_witness :
    ("address_country_code", "US") ∈ build_payload ({} : FormData) :=
  (build_payload_c6 ({} : FormData)).1

/-! ## Claim C7 — the validating route collects all failures -/

/-- Claim C7: the `evaluate` route of the archive server evaluates all nine
field rules independently — each failure message appears in the returned
list exactly when its own rule fails, regardless of the other rules — and
the list is empty exactly when every rule passes; the computation is total,
so it never throws. -/
theorem evaluate_issues_c7 : ∀ (today : Date) (d : FormData),
    (evaluate_issues today d = [] ↔
      (pyStrip (d.name_first.getD "") ≠ "" ∧
       pyStrip (d.name_last.getD "") ≠ "" ∧
       validate_age_18_120 today (pyStrip (d.birth_date.getD "")) = true ∧
       ((pyStrip (d.ssn.getD "")).length = 9 ∧
         (pyStrip (d.ssn.getD "")).data.all isAsciiDigit = true) ∧
       ((pyStrip (d.email.getD "")).data.contains '@' = true ∧
         (afterLastAt (pyStrip (d.email.getD "")).data).contains '.' = true) ∧
       pyStrip (d.address_line1.getD "") ≠ "" ∧
       pyStrip (d.address_city.getD "") ≠ "" ∧
       pyUpper (pyStrip (d.address_state.getD "")) ∈ validStatesList ∧
       pyStrip (d.address_postal_code.getD "") ≠ "")) ∧
    ("First name is required." ∈ evaluate_issues today d ↔
      pyStrip (d.name_first.getD "") = "") ∧
    ("Last name is required." ∈ evaluate_issues today d ↔
      pyStrip (d.name_last.getD "") = "") ∧
    ("DOB must be YYYY-MM-DD and age between 18–120." ∈ evaluate_issues today d ↔
      validate_age_18_120 today (pyStrip (d.birth_date.getD "")) = false) ∧
    ("SSN must be exactly 9 digits (numbers only)." ∈ evaluate_issues today d ↔
      ¬((pyStrip (d.ssn.getD "")).length = 9 ∧
        (pyStrip (d.ssn.getD "")).data.all isAsciiDigit = true)) ∧
    ("Email must look like name@example.com." ∈ evaluate_issues today d ↔
      ¬((pyStrip (d.email.getD "")).data.contains '@' = true ∧
        (afterLastAt (pyStrip (d.email.getD "")).data).contains '.' = true)) ∧
    ("Address Line 1 is required." ∈ evaluate_issues today d ↔
      pyStrip (d.address_line1.getD "") = "") ∧
    ("City is required." ∈ evaluate_issues today d ↔
      pyStrip (d.address_city.getD "") = "") ∧
    ("State must be a valid 2-letter US code (e.g., NY, CA)." ∈ evaluate_issues today d ↔
      pyUpper (pyStrip (d.address_state.getD "")) ∉ validStatesList) ∧
    ("Zip/Postal Code is required." ∈ evaluate_issues today d ↔
      pyStrip (d.address_postal_code.getD "") = "") := by
  intro today d
  refine ⟨?_, ?_, ?_, ?_, ?_, ?_, ?_, ?_, ?_, ?_⟩
  · simp [evaluate_issues, issueIf_eq_nil, List.append_eq_nil]
  all_goals simp [evaluate_issues, mem_issueIf, List.mem_append] <;> tauto

/-- Claim C7, witness: a fully valid submission produces the empty issue
list. -/
theorem evaluate_issues_c7_witness :
    evaluate_issues ⟨2026, 10, 12⟩
      { name_first := some "Ada", name_last := some "Lovelace",
        birth_date := some "1990-05-05", ssn := some "123456789",
        email := some "ada@example.com", address_line1 := some "1 Main St",
        address_city := some "New York", address_state := some "ny",
        address_postal_code := some "10001" } = [] :=
  (evaluate_issues_c7 ⟨2026, 10, 12⟩ _).1.mpr
    (by refine ⟨?_, ?_, ?_, ?_, ?_, ?_, ?_, ?_, ?_⟩ <;> decide)

/-! ## Claim C8 — validation happens before the network call -/

/-- Claim C8, counterexample: the claim says every submission to the
`evaluate` endpoint is validated before any network call; but the `evaluate`
route of `src/app.py` performs no field validation at all — the all-empty
form fails every rule of the validating route, yet the app route still
attempts the outbound network request. -/
theorem app_evaluate_c8_cex :
    evaluate_issues ⟨2026, 10, 12⟩ ({} : FormData) ≠ [] ∧
    app_evaluate true ({} : FormData) = .networkCall [("address_country_code", "US")] := by
  constructor <;> decide

/-- Claim C8, amended: in the validating variant (the `evaluate` route of
`src/archive/server.py`), the fields are validated before any network call:
whenever at least one rule fails, the handler returns the full list of error
messages and never attempts the outbound request (regardless of whether the
credentials would have loaded); the `src/app.py` route, by contrast,
performs no field validation. -/
theorem server_evaluate_c8 : ∀ (today : Date) (credsOk : Bool) (d : FormData),
    evaluate_issues today d ≠ [] →
      server_evaluate today credsOk d = .validationFailure (evaluate_issues today d) := by
  intro t c d h
  simp [server_evaluate, h]

/-- Claim C8, witness: the amended claim applied to the all-empty form. -/
theorem server_evaluate_c8_witness :
    server_evaluate ⟨2026, 10, 12⟩ true ({} : FormData) =
      .validationFailure (evaluate_issues ⟨2026, 10, 12⟩ ({} : FormData)) :=
  server_evaluate_c8 ⟨2026, 10, 12⟩ true ({} : FormData) (by decide)

/-! ## Claim C10 — the normalizer depends only on the outcome key -/

/-- Claim C10: `pretty_outcome` depends only on the `outcome` entry of the
summary: two summaries with equal outcomes normalize identically, whatever
their `score`, `tags`, `services` or `outcome_reasons`. -/
theorem pretty_outcome_c10 : ∀ s1 s2 : Summary, s1.outcome = s2.outcome →
    pretty_outcome s1 = pretty_outcome s2 := by
  intro s1 s2 h
  rw [pretty_outcome_congr s1, pretty_outcome_congr s2, h]

/-- Claim C10, witness: a summary rich in other keys normalizes like the
bare one. -/
theorem pretty_outcome_c10_witness :
    pretty_outcome ⟨some "approved", some 99, ["fraud"], ["svc"], ["r1"]⟩ =
    pretty_outcome (Summary.ofOutcome (some "approved")) :=
  pretty_outcome_c10 _ _ rfl

end Alloy
